import Mathlib

/-!
Shallow embedding of the core of the Interactive Sales Intelligence Dashboard
(`src/data_loader.py`): the record model, the filter, and the six aggregation
reducers, with theorems checking the specification's claims about them.

Conventions of the embedding:
* a pandas DataFrame of sales rows is a `List Record` (order and multiplicity
  of rows are kept);
* the numeric `Sales` column is modelled over `ℚ` (exact arithmetic, as the
  tolerance-free idealisation of the float column);
* pandas/NumPy float special values produced by division by zero or by the
  mean of an empty column are modelled by the `PFloat` type (`nan`, `inf`,
  `ninf` alongside ordinary rationals);
* a Python function that can raise returns `Option` (`none` models the raise);
* `df.groupby(k)` is modelled with its default `sort=True` behaviour: group
  keys are the distinct key values sorted ascending;
* `sort_values(ascending=False)` is modelled by an insertion sort on the
  descending-sales relation. The source's default NumPy quicksort fixes no
  particular order among equal-sales rows, so no theorem below relies on the
  tie order this deterministic realisation happens to produce: theorems about
  sorted output use only sortedness and permutation facts, which hold for
  every implementation of the sort.
-/

namespace SalesDash

/-- A calendar date as parsed by `load_data` from the `%d/%m/%Y` columns. -/
structure Date where
  year : Int
  month : Nat
  day : Nat
deriving DecidableEq, Repr

/-- Day number of a civil date (days since 1970-01-01), the standard
era/year-of-era civil-calendar formula; models the `pd.Timestamp` timeline
that `load_data` converts the date columns onto. All intermediate divisions
act on nonnegative values for valid dates. -/
def toDays (dt : Date) : Int :=
  let y : Int := if dt.month ≤ 2 then dt.year - 1 else dt.year
  let m : Int := dt.month
  let d : Int := dt.day
  let era : Int := (if 0 ≤ y then y else y - 399) / 400
  let yoe : Int := y - era * 400
  let mp : Int := (m + 9) % 12
  let doy : Int := (153 * mp + 2) / 5 + d - 1
  let doe : Int := yoe * 365 + yoe / 4 - yoe / 100 + doy
  era * 146097 + doe - 719468

/-- One sales row, with the columns of the source CSV that the core reads.
`Sales` is modelled over `ℚ`. -/
structure Record where
  orderId : String
  orderDate : Date
  shipDate : Date
  region : String
  segment : String
  category : String
  subCategory : String
  productName : String
  sales : ℚ
deriving DecidableEq, Repr

/-- Derived column `Shipping Days` of `load_data`:
`(df['Ship Date'] - df['Order Date']).dt.days`. -/
def shippingDays (r : Record) : Int :=
  toDays r.shipDate - toDays r.orderDate

/-- Derived column `Year-Month` of `load_data`, `to_period('M')`: the pair
(year, month) of the order date (in bijection with the "YYYY-MM" string;
its lexicographic order is the chronological order of the string form). -/
def yearMonth (r : Record) : Int × Nat :=
  (r.orderDate.year, r.orderDate.month)

/-- A pandas/NumPy float result: an ordinary (exact) value, or one of the
special values produced by zero division (`nan` for 0/0, `inf`/`ninf` for
±x/0) and by the mean of an empty column (`nan`). -/
inductive PFloat where
  | num (q : ℚ)
  | nan
  | inf
  | ninf
deriving DecidableEq, Repr

/-- IEEE-style division over exact values: `a / b`, with the NumPy special
results when `b = 0`. -/
def pdivQ (a b : ℚ) : PFloat :=
  if b = 0 then (if a = 0 then .nan else if 0 < a then .inf else .ninf)
  else .num (a / b)

/-- Multiplication by the constant 100 (`* 100` on the share column);
the special values absorb it. -/
def pmul100 : PFloat → PFloat
  | .num q => .num (q * 100)
  | .nan => .nan
  | .inf => .inf
  | .ninf => .ninf

/-- IEEE comparison `x < a` of a float against an exact value: `nan`
compares false, `inf` is above everything, `ninf` below everything. -/
def pltQ : PFloat → ℚ → Bool
  | .num q, a => decide (q < a)
  | .nan, _ => false
  | .inf, _ => false
  | .ninf, _ => true

/-- pandas `Series.mean()`: `nan` on an empty column, otherwise the exact
mean. -/
def pmean (l : List ℚ) : PFloat :=
  if l.length = 0 then .nan else .num (l.sum / (l.length : ℚ))

/-- The exact value carried by a float, reading the special values as 0. -/
def shareVal : PFloat → ℚ
  | .num q => q
  | _ => 0

/-! ### String ordering

pandas sorts object (string) group keys by Python string comparison, i.e.
lexicographically by code point. We model it by a structural lexicographic
comparison on the character list (the built-in `String` order is the same
order, but this form evaluates by `decide`). -/

/-- Lexicographic `≤` on character lists by code point. -/
def charsLE : List Char → List Char → Bool
  | [], _ => true
  | _ :: _, [] => false
  | a :: as, b :: bs =>
    if a < b then true
    else if b < a then false
    else charsLE as bs

/-- Lexicographic order on strings by code point (Python string `<=`). -/
def strLE (a b : String) : Prop := charsLE a.data b.data = true

instance : DecidableRel strLE := fun a b => inferInstanceAs (Decidable (_ = true))

/-- Strict lexicographic order on strings. -/
def strLT (a b : String) : Prop := strLE a b ∧ a ≠ b

instance : DecidableRel strLT := fun _ _ => inferInstanceAs (Decidable (_ ∧ _))

/-- Lexicographic `≤` on (category, sub-category) pairs, the order pandas
uses for a two-column group key. -/
def pairLE (a b : String × String) : Prop :=
  strLT a.1 b.1 ∨ (a.1 = b.1 ∧ strLE a.2 b.2)

instance : DecidableRel pairLE := fun _ _ => inferInstanceAs (Decidable (_ ∨ _))

/-- Lexicographic `≤` on (year, month) keys: the chronological order of the
"YYYY-MM" bucket strings. -/
def ymLE (a b : Int × Nat) : Prop :=
  a.1 < b.1 ∨ (a.1 = b.1 ∧ a.2 ≤ b.2)

instance : DecidableRel ymLE := fun _ _ => inferInstanceAs (Decidable (_ ∨ _))

theorem charsLE_total (a b : List Char) : charsLE a b = true ∨ charsLE b a = true := by
  induction a generalizing b with
  | nil => left; rfl
  | cons x xs ih =>
    cases b with
    | nil => right; rfl
    | cons y ys =>
      rcases lt_trichotomy x y with hxy | hxy | hxy
      · left; simp [charsLE, hxy]
      · subst hxy
        rcases ih ys with h | h
        · left; simp [charsLE, h]
        · right; simp [charsLE, h]
      · right; simp [charsLE, hxy]

theorem charsLE_trans (a b c : List Char) (hab : charsLE a b = true)
    (hbc : charsLE b c = true) : charsLE a c = true := by
  induction a generalizing b c with
  | nil => rfl
  | cons x xs ih =>
    cases b with
    | nil => simp [charsLE] at hab
    | cons y ys =>
      cases c with
      | nil => simp [charsLE] at hbc
      | cons z zs =>
        simp only [charsLE] at hab hbc ⊢
        rcases lt_trichotomy x y with hxy | hxy | hxy
        · rcases lt_trichotomy y z with hyz | hyz | hyz
          · simp [lt_trans hxy hyz]
          · subst hyz; simp [hxy]
          · simp [hyz, not_lt_of_gt hyz] at hbc
        · subst hxy
          rcases lt_trichotomy x z with hyz | hyz | hyz
          · simp [hyz]
          · subst hyz
            simp only [lt_irrefl, if_false] at hab hbc ⊢
            exact ih ys zs hab hbc
          · simp [hyz, not_lt_of_gt hyz] at hbc
        · simp [hxy, not_lt_of_gt hxy] at hab

theorem charsLE_antisymm (a b : List Char) (hab : charsLE a b = true)
    (hba : charsLE b a = true) : a = b := by
  induction a generalizing b with
  | nil =>
    cases b with
    | nil => rfl
    | cons y ys => simp [charsLE] at hba
  | cons x xs ih =>
    cases b with
    | nil => simp [charsLE] at hab
    | cons y ys =>
      simp only [charsLE] at hab hba
      rcases lt_trichotomy x y with hxy | hxy | hxy
      · simp [hxy, not_lt_of_gt hxy] at hba
      · subst hxy
        simp only [lt_irrefl, if_false] at hab hba
        rw [ih ys hab hba]
      · simp [hxy, not_lt_of_gt hxy] at hab

instance : IsTotal String strLE := ⟨fun a b => charsLE_total a.data b.data⟩

instance : IsTrans String strLE :=
  ⟨fun a b c hab hbc => charsLE_trans a.data b.data c.data hab hbc⟩

theorem strLE_antisymm (a b : String) (hab : strLE a b) (hba : strLE b a) : a = b := by
  cases a with
  | mk da =>
    cases b with
    | mk db =>
      have h : da = db := charsLE_antisymm da db hab hba
      rw [h]

theorem strLT_trans (a b c : String) (hab : strLT a b) (hbc : strLT b c) : strLT a c := by
  refine ⟨charsLE_trans _ _ _ hab.1 hbc.1, fun h => ?_⟩
  subst h
  exact hbc.2 (strLE_antisymm _ _ hbc.1 hab.1)

instance : IsTotal (String × String) pairLE := by
  constructor
  intro a b
  by_cases h1 : a.1 = b.1
  · rcases charsLE_total a.2.data b.2.data with h | h
    · exact Or.inl (Or.inr ⟨h1, h⟩)
    · exact Or.inr (Or.inr ⟨h1.symm, h⟩)
  · rcases charsLE_total a.1.data b.1.data with h | h
    · exact Or.inl (Or.inl ⟨h, h1⟩)
    · exact Or.inr (Or.inl ⟨h, fun hh => h1 hh.symm⟩)

instance : IsTrans (String × String) pairLE := by
  constructor
  rintro a b c (hab | ⟨hab1, hab2⟩) (hbc | ⟨hbc1, hbc2⟩)
  · exact Or.inl (strLT_trans _ _ _ hab hbc)
  · exact Or.inl (hbc1 ▸ hab)
  · exact Or.inl (hab1 ▸ hbc)
  · exact Or.inr ⟨hab1.trans hbc1, charsLE_trans _ _ _ hab2 hbc2⟩

/-! ### Grouping and sorting -/

/-- The relation `sort_values(col, ascending=False)` sorts by: descending
value of the sorted-on column `val`. -/
def descR {α : Type} (val : α → ℚ) (a b : α) : Prop := val b ≤ val a

instance {α : Type} (val : α → ℚ) : DecidableRel (descR val) :=
  fun a b => inferInstanceAs (Decidable (val b ≤ val a))

/-- `df.sort_values('Sales', ascending=False)` on a table of (key, sales)
rows: one deterministic realisation of the sort. The source's unstable
quicksort guarantees no tie order, so only sortedness and permutation facts
of this function are relied on below. -/
def sortBySalesDesc {K : Type} (l : List (K × ℚ)) : List (K × ℚ) :=
  List.insertionSort (descR Prod.snd) l

/-- `df.groupby(key)[Sales].sum()` with the default `sort=True`: one row per
distinct key value, keys ascending in `kle`, each carrying the sum of the
`Sales` of the rows of its group. -/
def groupbySum {K : Type} [DecidableEq K] (kle : K → K → Prop) [DecidableRel kle]
    (key : Record → K) (df : List Record) : List (K × ℚ) :=
  (List.insertionSort kle ((df.map key).dedup)).map
    (fun k => (k, ((df.filter (fun r => decide (key r = k))).map Record.sales).sum))

/-! ### The filter (`filter_data`) -/

/-- One `if sel and len(sel) > 0: df[df[col].isin(sel)]` step of
`filter_data`: a `None` or empty selection leaves the rows alone, a
non-empty one keeps the rows whose field is a member of it. -/
def isinStep (sel : Option (List String)) (field : Record → String)
    (df : List Record) : List Record :=
  match sel with
  | none => df
  | some s => if 0 < s.length then df.filter (fun r => decide (field r ∈ s)) else df

/-- `filter_data(df, regions, segments, categories, sub_categories,
date_range)`: the conjunction of the four categorical membership filters and
the inclusive date-range filter (applied only when the range has exactly two
elements; order-date comparison is on the timestamp timeline `toDays`). -/
def filter_data (df : List Record)
    (regions segments categories sub_categories : Option (List String))
    (date_range : Option (List Date)) : List Record :=
  let f1 := isinStep regions (fun r => r.region) df
  let f2 := isinStep segments (fun r => r.segment) f1
  let f3 := isinStep categories (fun r => r.category) f2
  let f4 := isinStep sub_categories (fun r => r.subCategory) f3
  match date_range with
  | some [s, e] =>
      f4.filter (fun r =>
        decide (toDays s ≤ toDays r.orderDate) && decide (toDays r.orderDate ≤ toDays e))
  | _ => f4

/-! ### The six reducers -/

/-- The KPI summary returned by `get_kpi_metrics`. -/
structure KPI where
  total_sales : ℚ
  total_orders : Nat
  avg_order_value : ℚ
  avg_shipping_days : PFloat
deriving DecidableEq, Repr

/-- `get_kpi_metrics(df)`: total sales, distinct order-id count, guarded
average order value, mean shipping days. -/
def get_kpi_metrics (df : List Record) : KPI :=
  let total_sales := (df.map Record.sales).sum
  let total_orders := ((df.map Record.orderId).dedup).length
  let avg_order_value := if 0 < total_orders then total_sales / (total_orders : ℚ) else 0
  let avg_shipping_days := pmean (df.map (fun r => (shippingDays r : ℚ)))
  ⟨total_sales, total_orders, avg_order_value, avg_shipping_days⟩

/-- `get_category_performance(df)`: sales summed by category and by
(category, sub-category), each table sorted by sales descending. -/
def get_category_performance (df : List Record) :
    List (String × ℚ) × List ((String × String) × ℚ) :=
  (sortBySalesDesc (groupbySum strLE (fun r => r.category) df),
   sortBySalesDesc (groupbySum pairLE (fun r => (r.category, r.subCategory)) df))

/-- `get_regional_performance(df)`: sales summed by region, sorted by sales
descending. -/
def get_regional_performance (df : List Record) : List (String × ℚ) :=
  sortBySalesDesc (groupbySum strLE (fun r => r.region) df)

/-- `get_time_series_data(df)`: sales summed by year-month bucket (keys in
their chronological groupby order; the column renaming of the source does
not change the table's content). -/
def get_time_series_data (df : List Record) : List ((Int × Nat) × ℚ) :=
  groupbySum ymLE yearMonth df

/-- `get_shipping_analysis(df)`: mean shipping days per category (each
group is non-empty, so the mean is an exact value). -/
def get_shipping_analysis (df : List Record) : List (String × ℚ) :=
  (List.insertionSort strLE ((df.map (fun r => r.category)).dedup)).map
    (fun k =>
      (k, ((df.filter (fun r => decide (r.category = k))).map
            (fun r => (shippingDays r : ℚ))).sum /
          (((df.filter (fun r => decide (r.category = k))).length : ℚ))))

/-- One row of the segment-share table of
`identify_underperforming_segments`. -/
structure SegmentShare where
  segment : String
  revenueShare : PFloat
  status : String
deriving DecidableEq, Repr

/-- The label applied to a segment whose share is strictly below the uniform
average share. -/
def belowLabel : String := "Below Average"

/-- The label applied to every other segment. -/
def aboveLabel : String := "Above Average"

/-- `identify_underperforming_segments(df)`: shares of total sales per
segment (`segment_sales / total_sales * 100`, with the IEEE special values
when the total is 0), labelled against the uniform average share
`100 / len(segment_share)`. The Python source divides by `len` **before**
guarding against an empty table, so an empty input raises
`ZeroDivisionError`; `none` models that raise. -/
def identify_underperforming_segments (df : List Record) :
    Option (List SegmentShare) :=
  let segment_sales := groupbySum strLE (fun r => r.segment) df
  let total_sales := (segment_sales.map Prod.snd).sum
  let segment_share := segment_sales.map (fun p => (p.1, pmul100 (pdivQ p.2 total_sales)))
  if segment_share.length = 0 then none
  else
    let avg_share : ℚ := 100 / (segment_share.length : ℚ)
    some (segment_share.map
      (fun p => ⟨p.1, p.2, if pltQ p.2 avg_share then belowLabel else aboveLabel⟩))

/-! ### Sum-preservation of grouping and sorting -/

theorem sum_map_filter_split (p : Record → Bool) (df : List Record) :
    ((df.filter p).map Record.sales).sum
      + ((df.filter (fun r => !(p r))).map Record.sales).sum
      = (df.map Record.sales).sum := by
  induction df with
  | nil => simp
  | cons r rs ih =>
    by_cases h : p r = true
    · simp [List.filter_cons, h]
      linarith [ih]
    · simp [List.filter_cons, h]
      linarith [ih]

theorem sum_fibers {K : Type} [DecidableEq K] (key : Record → K) :
    ∀ (ks : List K) (df : List Record), ks.Nodup → (∀ r ∈ df, key r ∈ ks) →
      (ks.map (fun k =>
        ((df.filter (fun r => decide (key r = k))).map Record.sales).sum)).sum
        = (df.map Record.sales).sum := by
  intro ks
  induction ks with
  | nil =>
    intro df _ hcov
    cases df with
    | nil => simp
    | cons r rs => exact absurd (hcov r (List.mem_cons_self r rs)) (List.not_mem_nil _)
  | cons k ks ih =>
    intro df hnd hcov
    have hsplit := sum_map_filter_split (fun r => decide (key r = k)) df
    have hrest :
        (ks.map (fun k' =>
          ((df.filter (fun r => decide (key r = k'))).map Record.sales).sum)).sum
        = (((df.filter (fun r => !(decide (key r = k)))).map Record.sales).sum) := by
      have hcong : ∀ k' ∈ ks,
          df.filter (fun r => decide (key r = k'))
            = (df.filter (fun r => !(decide (key r = k)))).filter
                (fun r => decide (key r = k')) := by
        intro k' hk'
        have hne : k' ≠ k := fun h => (List.nodup_cons.mp hnd).1 (h ▸ hk')
        rw [List.filter_filter]
        apply List.filter_congr
        intro r _
        by_cases hr : key r = k'
        · have : ¬ key r = k := fun hh => hne (hr ▸ hh ▸ rfl)
          simp [hr, this, hne]
        · simp [hr]
      calc (ks.map (fun k' =>
          ((df.filter (fun r => decide (key r = k'))).map Record.sales).sum)).sum
          = (ks.map (fun k' =>
            (((df.filter (fun r => !(decide (key r = k)))).filter
              (fun r => decide (key r = k'))).map Record.sales).sum)).sum := by
            apply congrArg
            apply List.map_congr_left
            intro a ha
            rw [hcong a ha]
        _ = (((df.filter (fun r => !(decide (key r = k)))).map Record.sales).sum) := by
            apply ih
            · exact (List.nodup_cons.mp hnd).2
            · intro r hr
              have h1 := List.mem_filter.mp hr
              have h2 := hcov r h1.1
              rcases List.mem_cons.mp h2 with h | h
              · exfalso
                have := h1.2
                simp [h] at this
              · exact h
    simp only [List.map_cons, List.sum_cons]
    rw [hrest, hsplit]

theorem groupbySum_snd_sum {K : Type} [DecidableEq K] (kle : K → K → Prop)
    [DecidableRel kle] (key : Record → K) (df : List Record) :
    ((groupbySum kle key df).map Prod.snd).sum = (df.map Record.sales).sum := by
  unfold groupbySum
  rw [List.map_map]
  have hperm : List.Perm (List.insertionSort kle ((df.map key).dedup)) ((df.map key).dedup) :=
    List.perm_insertionSort kle ((df.map key).dedup)
  apply sum_fibers key
  · exact (List.Perm.nodup_iff hperm).mpr (List.nodup_dedup _)
  · intro r hr
    rw [List.Perm.mem_iff hperm, List.mem_dedup]
    exact List.mem_map_of_mem key hr

theorem sortBySalesDesc_snd_sum {K : Type} (l : List (K × ℚ)) :
    ((sortBySalesDesc l).map Prod.snd).sum = (l.map Prod.snd).sum :=
  List.Perm.sum_eq (List.Perm.map Prod.snd (List.perm_insertionSort _ l))

theorem groupbySum_length {K : Type} [DecidableEq K] (kle : K → K → Prop)
    [DecidableRel kle] (key : Record → K) (df : List Record) :
    (groupbySum kle key df).length = ((df.map key).dedup).length := by
  unfold groupbySum
  rw [List.length_map, List.length_insertionSort]

/-! ### Sortedness of the descending-sales sort

Every implementation of `sort_values('Sales', ascending=False)` — stable or
not — returns its rows sorted by descending sales; this is the property of
the sort that the theorems below use. -/

instance {α : Type} (val : α → ℚ) : IsTotal α (descR val) :=
  ⟨fun a b => le_total (val b) (val a)⟩

instance {α : Type} (val : α → ℚ) : IsTrans α (descR val) :=
  ⟨fun _ _ _ hab hbc => le_trans hbc hab⟩

theorem sortBySalesDesc_sorted {K : Type} (l : List (K × ℚ)) :
    (sortBySalesDesc l).Pairwise (fun a b => b.2 ≤ a.2) :=
  (List.sorted_insertionSort (descR Prod.snd) l).imp (fun h => h)

/-! ### Characterisation of the filter -/

/-- The constraint a categorical selection places on a field value, as the
spec words it: a present, non-empty selection requires membership; an absent
or empty one requires nothing. -/
def selOK (sel : Option (List String)) (v : String) : Prop :=
  ∀ s, sel = some s → s ≠ [] → v ∈ s

/-- The constraint the date-range parameter places on the order date, as the
spec words it: a 2-element (start, end) range requires the date to lie in
[start, end], both bounds inclusive; any other shape requires nothing. -/
def dateOK (dr : Option (List Date)) (d : Date) : Prop :=
  ∀ s e, dr = some [s, e] → toDays s ≤ toDays d ∧ toDays d ≤ toDays e

theorem mem_isinStep (sel : Option (List String)) (field : Record → String)
    (df : List Record) (r : Record) :
    r ∈ isinStep sel field df ↔ r ∈ df ∧ selOK sel (field r) := by
  cases sel with
  | none => simp [isinStep, selOK]
  | some s =>
    by_cases h : 0 < s.length
    · have hne : s ≠ [] := List.ne_nil_of_length_pos h
      simp only [isinStep, if_pos h, List.mem_filter, decide_eq_true_eq, selOK]
      constructor
      · rintro ⟨h1, h2⟩
        exact ⟨h1, fun t ht _ => by cases ht; exact h2⟩
      · rintro ⟨h1, h2⟩
        exact ⟨h1, h2 s rfl hne⟩
    · have hs : s = [] := List.eq_nil_of_length_eq_zero (Nat.eq_zero_of_not_pos h)
      subst hs
      simp only [isinStep, if_neg h, selOK]
      constructor
      · intro h1
        exact ⟨h1, fun t ht hne => by cases ht; exact absurd rfl hne⟩
      · exact fun h1 => h1.1

theorem dateOK_none (d : Date) : dateOK none d := fun _ _ h => by cases h

theorem dateOK_pair (s e d : Date) :
    dateOK (some [s, e]) d ↔ toDays s ≤ toDays d ∧ toDays d ≤ toDays e := by
  constructor
  · intro h; exact h s e rfl
  · intro h s' e' he
    have : s = s' ∧ e = e' := by simpa using he
    rcases this with ⟨rfl, rfl⟩
    exact h

theorem isinStep_skip (sel : Option (List String)) (field : Record → String)
    (df : List Record) (h : sel = none ∨ sel = some []) : isinStep sel field df = df := by
  rcases h with h | h <;> subst h <;> simp [isinStep]

/-- C3: a record is in the output of `filter_data` iff it is in the input and
satisfies every applied constraint: membership of the field value in each
present non-empty categorical selection, and order date within the inclusive
[start, end] range whenever the date range is a 2-element pair; absent or
empty parameters constrain nothing. -/
theorem C3_filter_membership (df : List Record)
    (regions segments categories sub_categories : Option (List String))
    (date_range : Option (List Date)) (r : Record) :
    r ∈ filter_data df regions segments categories sub_categories date_range ↔
      r ∈ df ∧ selOK regions r.region ∧ selOK segments r.segment ∧
        selOK categories r.category ∧ selOK sub_categories r.subCategory ∧
        dateOK date_range r.orderDate := by
  have h4 : ∀ x : Record,
      x ∈ isinStep sub_categories (fun q => q.subCategory)
          (isinStep categories (fun q => q.category)
            (isinStep segments (fun q => q.segment)
              (isinStep regions (fun q => q.region) df))) ↔
        x ∈ df ∧ selOK regions x.region ∧ selOK segments x.segment ∧
          selOK categories x.category ∧ selOK sub_categories x.subCategory := by
    intro x
    rw [mem_isinStep, mem_isinStep, mem_isinStep, mem_isinStep]
    tauto
  rcases date_range with _ | dl
  · simp only [filter_data]
    rw [h4]
    have hd : dateOK none r.orderDate := dateOK_none r.orderDate
    tauto
  · rcases dl with _ | ⟨s, dl⟩
    · simp only [filter_data]
      rw [h4]
      have hd : dateOK (some []) r.orderDate := fun _ _ h => by cases h
      tauto
    · rcases dl with _ | ⟨e, dl⟩
      · simp only [filter_data]
        rw [h4]
        have hd : dateOK (some [s]) r.orderDate := fun _ _ h => by cases h
        tauto
      · rcases dl with _ | ⟨x, dl⟩
        · simp only [filter_data, List.mem_filter, Bool.and_eq_true, decide_eq_true_eq]
          rw [h4, dateOK_pair]
          tauto
        · simp only [filter_data]
          rw [h4]
          have hd : dateOK (some (s :: e :: x :: dl)) r.orderDate := fun _ _ h => by
            simp at h
          tauto

/-- C4: with every categorical selection absent or empty and no date range,
`filter_data` returns its input unchanged. -/
theorem C4_no_constraints_identity (df : List Record)
    (regions segments categories sub_categories : Option (List String))
    (hR : regions = none ∨ regions = some [])
    (hS : segments = none ∨ segments = some [])
    (hC : categories = none ∨ categories = some [])
    (hSC : sub_categories = none ∨ sub_categories = some []) :
    filter_data df regions segments categories sub_categories none = df := by
  simp only [filter_data]
  rw [isinStep_skip _ _ _ hR, isinStep_skip _ _ _ hS, isinStep_skip _ _ _ hC,
    isinStep_skip _ _ _ hSC]

/-! ### Sample rows used by the concrete witnesses and counterexamples -/

/-- 01/01/2023. -/
def d0101 : Date := ⟨2023, 1, 1⟩
/-- 03/01/2023. -/
def d0301 : Date := ⟨2023, 1, 3⟩
/-- 15/01/2023. -/
def d1501 : Date := ⟨2023, 1, 15⟩
/-- 16/01/2023. -/
def d1601 : Date := ⟨2023, 1, 16⟩
/-- 10/05/2023, an arbitrary date for rows whose dates play no role. -/
def dMay : Date := ⟨2023, 5, 10⟩

/-- Order A line 1 of the spec's 3-record scenario. -/
def rec9A1 : Record := ⟨"A", d0101, d0301, "West", "Consumer", "Furniture", "Chairs", "P1", 100⟩
/-- Order B of the spec's 3-record scenario. -/
def rec9B : Record := ⟨"B", d1501, d1601, "East", "Corporate", "Technology", "Phones", "P2", 200⟩
/-- Order A line 2 of the spec's 3-record scenario. -/
def rec9A2 : Record := ⟨"A", d0101, d0301, "West", "Consumer", "Furniture", "Tables", "P3", 50⟩
/-- The spec's 3-record scenario input. -/
def exDf9 : List Record := [rec9A1, rec9B, rec9A2]

/-- A single row with zero sales (Consumer segment). -/
def zeroRec2 : Record := ⟨"Z1", dMay, dMay, "West", "Consumer", "Furniture", "Chairs", "P", 0⟩

/-- A single row with zero sales (Corporate segment). -/
def zeroRec7 : Record := ⟨"Z2", dMay, dMay, "East", "Corporate", "Furniture", "Chairs", "P", 0⟩

/-- A single row with positive sales (Home Office segment). -/
def posRec7 : Record := ⟨"Z3", dMay, dMay, "East", "Home Office", "Furniture", "Chairs", "P", 100⟩

/-- A row of category "B", appearing first in the C8 input. -/
def rec8B : Record := ⟨"O1", dMay, dMay, "West", "Consumer", "B", "S1", "P", 10⟩
/-- A row of category "A", appearing second in the C8 input with the same sales. -/
def rec8A : Record := ⟨"O2", dMay, dMay, "West", "Consumer", "A", "S2", "P", 10⟩

/-- A row of segment "SegA" with half the sales. -/
def rec10A : Record := ⟨"O1", dMay, dMay, "West", "SegA", "Furniture", "Chairs", "P", 50⟩
/-- A row of segment "SegB" with the other half of the sales. -/
def rec10B : Record := ⟨"O2", dMay, dMay, "West", "SegB", "Furniture", "Chairs", "P", 50⟩
/-- Two equal-share segments. -/
def exDf10 : List Record := [rec10A, rec10B]

/-- A single ordinary row, input of the C4 witness. -/
def recW4 : Record := ⟨"W4", dMay, dMay, "South", "Consumer", "Furniture", "Chairs", "P", 7⟩
/-- A single ordinary row, input of the C6 witness. -/
def recW6 : Record := ⟨"W6", dMay, dMay, "South", "Consumer", "Furniture", "Chairs", "P", 100⟩

/-! ### The claims -/

/-- C1: on the empty subset, the five other reducers do return well-formed
empty or zero-valued tables (the KPI mean of shipping days being the
spec-sanctioned `nan` "no data" value), but
`identify_underperforming_segments` evaluates `100 / len(segment_share)`
with `len = 0` and raises `ZeroDivisionError` (modelled by `none`): the
claim's "never raises an exception" fails on the sixth reducer. -/
theorem C1_empty_input_behaviour :
    get_kpi_metrics [] = ⟨0, 0, 0, .nan⟩ ∧
    get_category_performance [] = ([], []) ∧
    get_regional_performance [] = [] ∧
    get_time_series_data [] = [] ∧
    get_shipping_analysis [] = [] ∧
    identify_underperforming_segments [] = none :=
  ⟨rfl, rfl, rfl, rfl, rfl, rfl⟩

/-- C2: on a non-empty subset whose total sales are zero, the segment share
is computed as `0 / 0 * 100`, which is NaN, not the claimed degraded 0 (the
source has no guard on the segment-share division); the
`avg_order_value = 0` guard of `get_kpi_metrics` for zero distinct orders
does hold. -/
theorem C2_zero_total_share_nan :
    identify_underperforming_segments [zeroRec2]
        = some [⟨"Consumer", .nan, aboveLabel⟩] ∧
    (PFloat.nan ≠ PFloat.num 0) ∧
    (get_kpi_metrics []).total_orders = 0 ∧
    (get_kpi_metrics []).avg_order_value = 0 := by
  refine ⟨?_, by simp, rfl, rfl⟩
  simp [identify_underperforming_segments, groupbySum, zeroRec2, pdivQ, pmul100, pltQ,
    belowLabel, aboveLabel]

/-- C9: the spec's 3-record scenario: KPIs (350 total, 2 distinct orders,
175 average order value, 5/3 mean shipping days), the East filter returning
exactly Order B's row, and the KPIs of that filtered subset (200, 1). -/
theorem C9_scenario :
    get_kpi_metrics exDf9 = ⟨350, 2, 175, .num (5/3)⟩ ∧
    filter_data exDf9 (some ["East"]) none none none none = [rec9B] ∧
    get_kpi_metrics [rec9B] = ⟨200, 1, 200, .num 1⟩ := by
  refine ⟨?_, ?_, ?_⟩
  · simp [get_kpi_metrics, exDf9, rec9A1, rec9B, rec9A2, pmean, shippingDays, toDays,
      d0101, d0301, d1501, d1601]
    norm_num
  · simp [filter_data, isinStep, exDf9, rec9A1, rec9B, rec9A2]
  · simp [get_kpi_metrics, rec9B, pmean, shippingDays, toDays, d1501, d1601]
    norm_num

/-- C4 witness: the identity theorem applied at a concrete one-row input
with a mix of absent and empty selections. -/
theorem C4_witness :
    ((none : Option (List String)) = none ∨ (none : Option (List String)) = some []) ∧
    ((some [] : Option (List String)) = none ∨ (some [] : Option (List String)) = some []) ∧
    filter_data [recW4] none (some []) none (some []) none = [recW4] :=
  ⟨Or.inl rfl, Or.inr rfl,
    C4_no_constraints_identity [recW4] none (some []) none (some [])
      (Or.inl rfl) (Or.inr rfl) (Or.inl rfl) (Or.inr rfl)⟩

/-- C5: the per-group sales of the category table, the (category,
sub-category) table, the regional table and the time-series table each sum
to the total sales of the input subset, exactly over `ℚ`. -/
theorem C5_group_sums_total (df : List Record) :
    ((get_category_performance df).1.map Prod.snd).sum = (df.map Record.sales).sum ∧
    ((get_category_performance df).2.map Prod.snd).sum = (df.map Record.sales).sum ∧
    ((get_regional_performance df).map Prod.snd).sum = (df.map Record.sales).sum ∧
    ((get_time_series_data df).map Prod.snd).sum = (df.map Record.sales).sum := by
  refine ⟨?_, ?_, ?_, ?_⟩
  · show ((sortBySalesDesc (groupbySum strLE (fun r => r.category) df)).map Prod.snd).sum = _
    rw [sortBySalesDesc_snd_sum, groupbySum_snd_sum]
  · show ((sortBySalesDesc (groupbySum pairLE
      (fun r => (r.category, r.subCategory)) df)).map Prod.snd).sum = _
    rw [sortBySalesDesc_snd_sum, groupbySum_snd_sum]
  · show ((sortBySalesDesc (groupbySum strLE (fun r => r.region) df)).map Prod.snd).sum = _
    rw [sortBySalesDesc_snd_sum, groupbySum_snd_sum]
  · show ((groupbySum ymLE yearMonth df).map Prod.snd).sum = _
    rw [groupbySum_snd_sum]

/-- C6: on a non-empty subset the average order value equals total sales
divided by the distinct-order count exactly, and it equals 0 whenever the
distinct-order count is zero. -/
theorem C6_avg_order_value (df : List Record) :
    (df ≠ [] →
      (get_kpi_metrics df).avg_order_value
        = (get_kpi_metrics df).total_sales / ((get_kpi_metrics df).total_orders : ℚ)) ∧
    ((get_kpi_metrics df).total_orders = 0 → (get_kpi_metrics df).avg_order_value = 0) := by
  constructor
  · intro hne
    have hpos : 0 < ((df.map Record.orderId).dedup).length := by
      cases df with
      | nil => exact absurd rfl hne
      | cons r rs =>
        apply List.length_pos_of_mem (a := r.orderId)
        rw [List.mem_dedup]
        exact List.mem_map_of_mem Record.orderId (List.mem_cons_self r rs)
    show (if 0 < ((df.map Record.orderId).dedup).length then _ else _) = _
    rw [if_pos hpos]
    rfl
  · intro h0
    have h0' : ((df.map Record.orderId).dedup).length = 0 := h0
    show (if 0 < ((df.map Record.orderId).dedup).length then _ else _) = _
    rw [if_neg (by omega)]

/-- C6 witness: the theorem applied at a one-row input (non-empty case) and
at the empty input (zero-order case). -/
theorem C6_witness :
    (([recW6] : List Record) ≠ [] ∧
      (get_kpi_metrics [recW6]).avg_order_value
        = (get_kpi_metrics [recW6]).total_sales
          / ((get_kpi_metrics [recW6]).total_orders : ℚ)) ∧
    ((get_kpi_metrics ([] : List Record)).total_orders = 0 ∧
      (get_kpi_metrics ([] : List Record)).avg_order_value = 0) :=
  ⟨⟨by simp [recW6], (C6_avg_order_value [recW6]).1 (by simp)⟩,
   ⟨rfl, (C6_avg_order_value []).2 rfl⟩⟩

/-! ### Segment-share helpers -/

theorem statusRow_sum (pairs : List (String × ℚ)) (T avg : ℚ) (hTne : T ≠ 0) :
    (((pairs.map (fun p => (p.1, pmul100 (pdivQ p.2 T)))).map
        (fun q => (⟨q.1, q.2, if pltQ q.2 avg then belowLabel else aboveLabel⟩ : SegmentShare))).map
      (fun seg => shareVal seg.revenueShare)).sum
    = (pairs.map Prod.snd).sum * (100 / T) := by
  rw [List.map_map, List.map_map]
  simp only [Function.comp_def]
  have hpt : ∀ p ∈ pairs, shareVal (pmul100 (pdivQ p.2 T)) = p.2 * (100 / T) := by
    intro p _
    simp only [pdivQ, if_neg hTne, pmul100, shareVal]
    ring
  rw [List.map_congr_left hpt, List.sum_map_mul_right]

theorem statusRow_share_num (pairs : List (String × ℚ)) (T avg : ℚ) (hTne : T ≠ 0) :
    ∀ seg ∈ (pairs.map (fun p => (p.1, pmul100 (pdivQ p.2 T)))).map
        (fun q => (⟨q.1, q.2, if pltQ q.2 avg then belowLabel else aboveLabel⟩ : SegmentShare)),
      seg.revenueShare = PFloat.num (shareVal seg.revenueShare) := by
  intro seg hseg
  rw [List.map_map] at hseg
  obtain ⟨p, hp, rfl⟩ := List.mem_map.mp hseg
  simp only [Function.comp_def, pdivQ, if_neg hTne, pmul100, shareVal]

theorem statusRow_status_above (pairs : List (String × ℚ)) (T avg : ℚ)
    (seg : SegmentShare)
    (hseg : seg ∈ (pairs.map (fun p => (p.1, pmul100 (pdivQ p.2 T)))).map
        (fun q => (⟨q.1, q.2, if pltQ q.2 avg then belowLabel else aboveLabel⟩ : SegmentShare)))
    (hshare : seg.revenueShare = PFloat.num avg) :
    seg.status = aboveLabel := by
  rw [List.map_map] at hseg
  obtain ⟨p, hp, rfl⟩ := List.mem_map.mp hseg
  simp only [Function.comp_def] at hshare ⊢
  rw [hshare]
  simp [pltQ]

/-- C7 counterexample: the one-row subset with zero sales is non-empty, yet
its single segment share is `0 / 0 = NaN`, so the shares do not sum to 100
(reading the non-numeric NaN entry as 0, the sum is 0). -/
theorem C7_counterexample :
    identify_underperforming_segments [zeroRec7]
        = some [⟨"Corporate", .nan, aboveLabel⟩] ∧
    (([⟨"Corporate", PFloat.nan, aboveLabel⟩] : List SegmentShare).map
        (fun seg => shareVal seg.revenueShare)).sum ≠ 100 := by
  constructor
  · simp [identify_underperforming_segments, groupbySum, zeroRec7, pdivQ, pmul100,
      pltQ, belowLabel, aboveLabel]
  · simp [shareVal]

/-- C7 (amended): for every subset with positive total sales, every revenue
share is an ordinary numeric value and the shares sum to exactly 100. -/
theorem C7_shares_sum_100 (df : List Record) (out : List SegmentShare)
    (h1 : identify_underperforming_segments df = some out)
    (h2 : 0 < (df.map Record.sales).sum) :
    (out.map (fun seg => shareVal seg.revenueShare)).sum = 100 ∧
    ∀ seg ∈ out, seg.revenueShare = PFloat.num (shareVal seg.revenueShare) := by
  have hT : ((groupbySum strLE (fun r => r.segment) df).map Prod.snd).sum
      = (df.map Record.sales).sum := groupbySum_snd_sum _ _ df
  have hTne : ((groupbySum strLE (fun r => r.segment) df).map Prod.snd).sum ≠ 0 := by
    rw [hT]; exact ne_of_gt h2
  simp only [identify_underperforming_segments] at h1
  split at h1
  · cases h1
  · rw [Option.some.injEq] at h1
    subst h1
    constructor
    · rw [statusRow_sum _ _ _ hTne, mul_comm, div_mul_cancel₀ _ hTne]
    · exact statusRow_share_num _ _ _ hTne

/-- C7 witness: the amended theorem applied at a one-row subset with
positive sales: its single share is the numeric value 100. -/
theorem C7_witness :
    identify_underperforming_segments [posRec7]
        = some [⟨"Home Office", .num 100, aboveLabel⟩] ∧
    0 < (([posRec7] : List Record).map Record.sales).sum ∧
    ((([⟨"Home Office", .num 100, aboveLabel⟩] : List SegmentShare).map
        (fun seg => shareVal seg.revenueShare)).sum = 100 ∧
      ∀ seg ∈ ([⟨"Home Office", .num 100, aboveLabel⟩] : List SegmentShare),
        seg.revenueShare = PFloat.num (shareVal seg.revenueShare)) := by
  have h1 : identify_underperforming_segments [posRec7]
      = some [⟨"Home Office", .num 100, aboveLabel⟩] := by
    simp [identify_underperforming_segments, groupbySum, posRec7, pdivQ, pmul100,
      pltQ, belowLabel, aboveLabel]
  have h2 : 0 < (([posRec7] : List Record).map Record.sales).sum := by
    norm_num [posRec7]
  exact ⟨h1, h2, C7_shares_sum_100 [posRec7] _ h1 h2⟩

/-- C8 counterexample: with category "B" encountered first in the input and
category "A" second, both with the same sales, `get_category_performance`
lists "A" before "B" (the grouping step orders groups by key, not by input
encounter order), so equal-sales ties are not broken by stable input order. -/
theorem C8_counterexample :
    (get_category_performance [rec8B, rec8A]).1 = [("A", 10), ("B", 10)] ∧
    (get_category_performance [rec8B, rec8A]).1 ≠ [("B", 10), ("A", 10)] ∧
    rec8B.category = "B" ∧ rec8A.category = "A" ∧ rec8B.sales = rec8A.sales := by
  have h : (get_category_performance [rec8B, rec8A]).1 = [("A", 10), ("B", 10)] := by
    simp [get_category_performance, sortBySalesDesc, groupbySum, rec8B, rec8A,
      List.insertionSort, List.orderedInsert, descR, strLE, charsLE]
  refine ⟨h, ?_, rfl, rfl, rfl⟩
  rw [h]
  simp

/-- C8 (amended): both tables of `get_category_performance` are sorted by
Sales in descending order; ties between equal Sales values are not broken by
stable input order (the grouping step reorders groups by key before the
sort, as the counterexample shows, and the source's unstable sort guarantees
no particular tie order, so no positive tie order is asserted). -/
theorem C8_sorted_desc (df : List Record) :
    ((get_category_performance df).1.Pairwise (fun a b => b.2 ≤ a.2)) ∧
    ((get_category_performance df).2.Pairwise (fun a b => b.2 ≤ a.2)) := by
  constructor
  · show (sortBySalesDesc (groupbySum strLE (fun r => r.category) df)).Pairwise _
    exact sortBySalesDesc_sorted _
  · show (sortBySalesDesc (groupbySum pairLE
        (fun r => (r.category, r.subCategory)) df)).Pairwise _
    exact sortBySalesDesc_sorted _

/-- C10: whenever the total sales are positive, a segment whose revenue
share equals the uniform average share (100 over the number of distinct
segments) exactly is labelled above average: the below-average label is
applied only under the strict comparison `share < average`. -/
theorem C10_equal_share_above (df : List Record) (out : List SegmentShare)
    (seg : SegmentShare)
    (h1 : identify_underperforming_segments df = some out)
    (h2 : seg ∈ out)
    (h3 : 0 < (df.map Record.sales).sum)
    (h4 : seg.revenueShare
        = PFloat.num (100 / (((df.map (fun r => r.segment)).dedup).length : ℚ))) :
    seg.status = aboveLabel := by
  simp only [identify_underperforming_segments] at h1
  split at h1
  · cases h1
  · rw [Option.some.injEq] at h1
    subst h1
    apply statusRow_status_above _ _ _ _ h2
    rw [h4, List.length_map, groupbySum_length]

/-- C10 witness: the theorem applied at a two-row input whose two segments
each hold exactly half the sales: both shares equal the uniform average 50,
and the first row is labelled above average. -/
theorem C10_witness :
    identify_underperforming_segments exDf10
        = some [⟨"SegA", .num 50, aboveLabel⟩, ⟨"SegB", .num 50, aboveLabel⟩] ∧
    (⟨"SegA", .num 50, aboveLabel⟩ : SegmentShare)
        ∈ [(⟨"SegA", .num 50, aboveLabel⟩ : SegmentShare), ⟨"SegB", .num 50, aboveLabel⟩] ∧
    0 < ((exDf10.map Record.sales).sum) ∧
    (⟨"SegA", .num 50, aboveLabel⟩ : SegmentShare).revenueShare
        = PFloat.num (100 / (((exDf10.map (fun r => r.segment)).dedup).length : ℚ)) ∧
    (⟨"SegA", .num 50, aboveLabel⟩ : SegmentShare).status = aboveLabel := by
  have h1 : identify_underperforming_segments exDf10
      = some [⟨"SegA", .num 50, aboveLabel⟩, ⟨"SegB", .num 50, aboveLabel⟩] := by
    simp [identify_underperforming_segments, groupbySum, exDf10, rec10A, rec10B,
      pdivQ, pmul100, pltQ, belowLabel, aboveLabel, List.insertionSort,
      List.orderedInsert, strLE, charsLE]
    norm_num
  have h2 : (⟨"SegA", .num 50, aboveLabel⟩ : SegmentShare)
      ∈ [(⟨"SegA", .num 50, aboveLabel⟩ : SegmentShare), ⟨"SegB", .num 50, aboveLabel⟩] :=
    List.mem_cons_self _ _
  have h3 : 0 < ((exDf10.map Record.sales).sum) := by
    norm_num [exDf10, rec10A, rec10B]
  have h4 : (⟨"SegA", .num 50, aboveLabel⟩ : SegmentShare).revenueShare
      = PFloat.num (100 / (((exDf10.map (fun r => r.segment)).dedup).length : ℚ)) := by
    have hlen : ((exDf10.map (fun r => r.segment)).dedup).length = 2 := by decide
    rw [hlen]
    norm_num
  exact ⟨h1, h2, h3, h4, C10_equal_share_above exDf10 _ _ h1 h2 h3 h4⟩
